import Mathlib

/-!
# gentx-count: submission discovery and validation pipeline

A shallow embedding of `main.go` and `types.go`.

* Go functions that return `(value, err)` return `Except String value` here.
* A Go `panic` and `os.Exit` end a run; they are the two constructors of `Abort`.
* Every `http.Get` and every line written to standard output is appended to an
  event log, so that the order and the number of effects can be stated.
* The transport, the JSON decoders, the transaction codec, `ValidateBasic` and the
  clock are external; they are the fields of `Env`.
-/

namespace GentxCount

/-! ## Data model (types.go) -/

/-- The `label` struct of types.go. -/
structure label where
  ID : Int
  NodeID : String
  URL : String
  Name : String
  Color : String
  Default : Bool
  deriving DecidableEq, Repr

/-- The `labels` slice type of types.go. -/
abbrev labels := List label

/-- The `file` struct of types.go. -/
structure file where
  Sha : String
  Filename : String
  Status : String
  Additions : Int
  Deletions : Int
  Changes : Int
  BlobURL : String
  RawURL : String
  ContentsURL : String
  Patch : String
  deriving DecidableEq, Repr

/-- The `files` slice type of types.go. -/
abbrev files := List file

/-- The `pullRequest` struct of types.go, restricted to the identifying fields and the
two fields the pipeline reads (`Number`, `Labels`). -/
structure pullRequest where
  URL : String
  ID : Int
  Number : Int
  State : String
  Title : String
  Labels : labels
  deriving DecidableEq, Repr

/-- The `pullsResponse` slice type of types.go: one page of the listing. -/
abbrev pullsResponse := List pullRequest

/-- The `ratelimit` struct of main.go. -/
structure ratelimit where
  Message : String
  DocumentationURL : String
  deriving DecidableEq, Repr

/-! ## The coin library (cosmos-sdk `types`), as far as the program uses it -/

/-- Modelled from the spec: the `sdk.Int` type of the external coin library, which is not
part of this repository. The spec calls the amount an "arbitrary-precision integer
amount"; `none` is the zero value `sdk.Int{}`, which holds no integer. -/
abbrev SdkInt := Option Int

/-- Modelled from the spec: `sdk.Coin` of the external coin library, a denomination and an
amount. -/
structure Coin where
  Denom : String
  Amount : SdkInt
  deriving DecidableEq, Repr

/-- Modelled from the spec: `sdk.NewInt` of the external coin library. -/
def NewInt (n : Int) : SdkInt := some n

/-- Modelled from the spec: `sdk.Int.Quo` of the external coin library, "integer/truncating
division"; it fails on an amount that holds no integer and on a zero divisor. -/
def SdkInt.Quo (i i2 : SdkInt) : Except String SdkInt :=
  match i, i2 with
  | some a, some b => if b = 0 then .error "Division by zero" else .ok (some (Int.tdiv a b))
  | _, _ => .error "nil pointer dereference"

/-- Modelled from the spec: `sdk.NewCoin` of the external coin library; it refuses a negative
amount. The only denomination the program passes is the literal atom. -/
def NewCoin (denom : String) (amount : SdkInt) : Except String Coin :=
  match amount with
  | some a => if a < 0 then .error "negative coin amount" else .ok ⟨denom, some a⟩
  | none => .error "nil pointer dereference"

/-- Modelled from the spec: `sdk.NewInt64Coin` of the external coin library. -/
def NewInt64Coin (denom : String) (amount : Int) : Except String Coin :=
  NewCoin denom (NewInt amount)

/-- Modelled from the spec: `sdk.Coin.Add` of the external coin library, "using the same
denomination"; it fails when the denominations differ. -/
def Coin.Add (coin coinB : Coin) : Except String Coin :=
  if coin.Denom ≠ coinB.Denom then .error "invalid coin denominations"
  else
    match coin.Amount, coinB.Amount with
    | some a, some b => .ok ⟨coin.Denom, some (a + b)⟩
    | _, _ => .error "nil pointer dereference"

/-- The fields of `stypes.MsgCreateValidator` (shape as in the `gentx` struct of types.go);
the pipeline reads `Moniker` and `Value`. -/
structure MsgCreateValidator where
  Moniker : String
  Identity : String
  Website : String
  Details : String
  Rate : String
  MaxRate : String
  MaxChangeRate : String
  MinSelfDelegation : String
  DelegatorAddress : String
  ValidatorAddress : String
  Pubkey : String
  Value : Coin
  deriving DecidableEq, Repr

/-- The Go zero value of `stypes.MsgCreateValidator`: what a named result holds when
nothing was assigned to it. -/
def MsgCreateValidator.zero : MsgCreateValidator :=
  ⟨"", "", "", "", "", "", "", "", "", "", "", ⟨"", none⟩⟩

/-- The `GenTxs` slice type of main.go. -/
abbrev GenTxs := List MsgCreateValidator

/-- The `auth.StdTx` envelope: enclosed messages, fee, signatures, memo. The type `M` of an
enclosed message (`sdk.Msg`) belongs to the external codec. -/
structure StdTx (M : Type) where
  Msgs : List M
  Fee : String
  Signatures : List String
  Memo : String

/-! ## Effects -/

/-- Which remote endpoint an `http.Get` was issued for. -/
inductive Endpoint where
  | listing
  | changedFiles
  | rawContent
  deriving DecidableEq, Repr

/-- One observable effect of a run. -/
inductive Event where
  | get (ep : Endpoint) (url : String)
  | println (s : String)
  | printFiles (f : files)
  | rateLimitLeft (d : Int)
  | allocation (moniker : String) (c : Coin)
  | submissions (n : Nat)
  | total (c : Coin)
  deriving DecidableEq, Repr

/-- How a run ends when it does not complete: a Go panic or `os.Exit`. -/
inductive Abort where
  | panic (err : String)
  | exit (code : Nat)
  deriving DecidableEq, Repr

/-- A computation with effects: the events it caused, and its result or the abort. -/
structure Run (α : Type) where
  log : List Event
  out : Except Abort α

/-- A computation that returns `x` with no effect. -/
def Run.ret {α : Type} (x : α) : Run α := ⟨[], .ok x⟩

/-- A computation that causes the event `e`. -/
def Run.emit (e : Event) : Run Unit := ⟨[e], .ok ()⟩

/-- A computation that ends the run. -/
def Run.abort {α : Type} (a : Abort) : Run α := ⟨[], .error a⟩

/-- Sequencing: the effects of `r`, then those of `f` on the result of `r`; an abort of `r`
ends the whole computation. -/
def Run.bind {α β : Type} (r : Run α) (f : α → Run β) : Run β :=
  match r.out with
  | .error a => ⟨r.log, .error a⟩
  | .ok x => ⟨r.log ++ (f x).log, (f x).out⟩

/-- A library call that panics on failure, lifted into a run. -/
def Run.ofPanic {α : Type} (r : Except String α) : Run α :=
  match r with
  | .ok x => Run.ret x
  | .error e => Run.abort (.panic e)

/-! ## Label filter and diff validator (types.go) -/

/-- The method `label.isgentx` of types.go. -/
def label.isgentx (l : label) : Bool :=
  if l.Name = "gentx" then true else false

/-- The method `labels.isgentx` of types.go: the loop returns at the first hit. -/
def labels.isgentx : labels → Bool
  | [] => false
  | l :: rest => if l.isgentx then true else labels.isgentx rest

/-- The method `files.valid` of types.go: a list of any length but 1 is printed and
rejected. -/
def files.valid (f : files) : Run Bool :=
  if f.length = 1 then Run.ret true
  else Run.bind (Run.emit (.printFiles f)) (fun _ => Run.ret false)

/-! ## Aggregator / reporter (main.go) -/

/-- The function `uatomToAtom` of main.go. -/
def uatomToAtom (c : Coin) : Except String Coin :=
  match SdkInt.Quo c.Amount (NewInt 1000000) with
  | .error e => .error e
  | .ok q => NewCoin "atom" q

/-- The loop of `GenTxs.total`, from the running coin `out`. -/
def GenTxs.totalFrom : GenTxs → Coin → Except String Coin
  | [], out => .ok out
  | gt :: rest, out =>
    match uatomToAtom gt.Value with
    | .error e => .error e
    | .ok c =>
      match out.Add c with
      | .error e => .error e
      | .ok out2 => GenTxs.totalFrom rest out2

/-- The method `GenTxs.total` of main.go: the sum is printed. -/
def GenTxs.total (gtx : GenTxs) : Run Unit :=
  Run.bind (Run.ofPanic (NewInt64Coin "atom" 0)) (fun out0 =>
  Run.bind (Run.ofPanic (GenTxs.totalFrom gtx out0)) (fun out =>
  Run.emit (.total out)))

/-- The method `GenTxs.print` of main.go: one line per submission. -/
def GenTxs.print : GenTxs → Run Unit
  | [] => Run.ret ()
  | gt :: rest =>
    Run.bind (Run.ofPanic (uatomToAtom gt.Value)) (fun c =>
    Run.bind (Run.emit (.allocation gt.Moniker c)) (fun _ =>
    GenTxs.print rest))

/-- The last four statements of `main` (lines 63 to 66): the report. -/
def mainReport (gentxs : GenTxs) : Run Unit :=
  Run.bind (Run.emit (.println "Validator Allocations:")) (fun _ =>
  Run.bind (GenTxs.print gentxs) (fun _ =>
  Run.bind (Run.emit (.submissions gentxs.length)) (fun _ =>
  GenTxs.total gentxs)))

/-! ## The environment: everything outside the repository -/

/-- What the program reads of an `*http.Response`. -/
structure Response where
  /-- The result of `ioutil.ReadAll(res.Body)`. -/
  Body : Except String String
  /-- The URI of `link.ParseResponse(res)["next"]`, when that relation is present. -/
  next : Option String
  /-- The value of `res.Header.Get("X-RateLimit-Reset")`. -/
  rateLimitReset : String
  deriving Repr

/-- The external capabilities: credential, transport, decoders, codec, validator, clock.
The remote state is fixed for the duration of a run. -/
structure Env (M : Type) where
  /-- The value of `os.Getenv("GITHUB_API_TOKEN")`. -/
  ghapi : String
  /-- The remote side of `http.Get` for a non-empty URL. -/
  transport : String → Except String Response
  /-- The call `json.Unmarshal(bz, &pr)` with `pr` a `pullsResponse`. -/
  unmarshalPulls : String → Except String pullsResponse
  /-- The call `json.Unmarshal(bz, &rl)` with `rl` a `ratelimit`. -/
  unmarshalRatelimit : String → Except String ratelimit
  /-- The call `json.Unmarshal(bz, &f)` with `f` a `files`. -/
  unmarshalFiles : String → Except String files
  /-- The call `cdc.UnmarshalJSON(bz, &stdTx)`. -/
  unmarshalStdTx : String → Except String (StdTx M)
  /-- The call `gentx.ValidateBasic()`: `none` is a nil error. -/
  validateBasic : M → Option String
  /-- The call `cdc.MarshalJSON(gentx)`. -/
  marshalJSON : M → Except String String
  /-- The value left in `gtx` by `cdc.UnmarshalJSON(jsn, &gtx)`, whose error is dropped. -/
  unmarshalMsg : String → MsgCreateValidator
  /-- The duration `time.Unix(i, 0).Sub(time.Now())`. -/
  untilReset : Int → Int

/-- The call `http.Get(url)`: an empty URL has no protocol scheme and fails before any
request is sent. -/
def httpGet {M : Type} (env : Env M) (url : String) : Except String Response :=
  if url = "" then .error "unsupported protocol scheme" else env.transport url

/-- The base URL `base` of main.go. -/
def base : String := "https://api.github.com/repos/cosmos/launch"

/-- The function `pullsURL` of main.go. -/
def pullsURL {M : Type} (env : Env M) : String :=
  base ++ "/pulls?access_token=" ++ env.ghapi

/-- The function `pullFilesURL` of main.go. -/
def pullFilesURL {M : Type} (env : Env M) (number : Int) : String :=
  base ++ "/pulls/" ++ toString number ++ "/files?access_token=" ++ env.ghapi

/-! ## Rate-limit sentinel (main.go) -/

/-- The method `ratelimit.hit` of main.go. No function of the program calls it. -/
def ratelimit.hit (rl : ratelimit) : Bool :=
  if rl.DocumentationURL = "https://developer.github.com/v3/#rate-limiting" then true else false

/-- The value of a string of decimal digits; `none` when a character is not a digit or the
string is empty. -/
def digitsValue (cs : List Char) : Option Nat :=
  if cs = [] then none
  else cs.foldl (fun acc c =>
    match acc with
    | none => none
    | some n => if c.isDigit then some (10 * n + (c.toNat - 48)) else none) (some 0)

/-- The call `strconv.ParseInt(s, 10, 64)`: an optional sign, decimal digits, and a value
that fits in 64 bits. -/
def ParseInt (s : String) : Except String Int :=
  let signed : Option Int :=
    match s.toList with
    | '-' :: ds => (digitsValue ds).map (fun n => - (n : Int))
    | '+' :: ds => (digitsValue ds).map (fun n => (n : Int))
    | ds => (digitsValue ds).map (fun n => (n : Int))
  match signed with
  | none => .error "invalid syntax"
  | some v =>
    if v < -9223372036854775808 ∨ 9223372036854775807 < v then .error "value out of range"
    else .ok v

/-- The function `left` of main.go. -/
def left {M : Type} (env : Env M) (s : String) : Run Int :=
  match ParseInt s with
  | .error e => Run.abort (.panic e)
  | .ok i => Run.ret (env.untilReset i)

/-- The function `processPullResponse` of main.go. The second `json.Unmarshal` assigns to
the same `err`; when it succeeds the wait is printed and the process exits with code 1. -/
def processPullResponse {M : Type} (env : Env M) (res : Response) :
    Run (Except String pullsResponse) :=
  match res.Body with
  | .error e => Run.ret (.error e)
  | .ok bz =>
    match env.unmarshalPulls bz with
    | .ok pr => Run.ret (.ok pr)
    | .error _ =>
      match env.unmarshalRatelimit bz with
      | .ok _ =>
        Run.bind (left env res.rateLimitReset) (fun d =>
        Run.bind (Run.emit (.rateLimitLeft d)) (fun _ =>
        Run.abort (.exit 1)))
      | .error e2 => Run.ret (.error e2)

/-! ## Pagination walker (main.go) -/

/-- The function `pulls` of main.go. It has no error result: after a failed `http.Get` the
bare `return` hands back the zero values of `out` and `next`. -/
def pulls {M : Type} (env : Env M) (resp : List pullsResponse) (url : String) :
    Run (List pullsResponse × String) :=
  Run.bind (Run.emit (.get .listing url)) (fun _ =>
  match httpGet env url with
  | .error _ => Run.ret ([], "")
  | .ok res =>
    Run.bind (processPullResponse env res) (fun r =>
    match r with
    | .error e => Run.abort (.panic e)
    | .ok pr =>
      match res.next with
      | some uri => Run.ret (resp ++ [pr], uri)
      | none => Run.ret (resp ++ [pr], "")))

/-- The `for` loop of `fetchPulls`, with a bound on the number of iterations; `none` when
the bound is reached before the loop ends. -/
def fetchPullsLoop {M : Type} (env : Env M) :
    Nat → List pullsResponse → String → Option (Run (List pullsResponse))
  | 0, _, _ => none
  | fuel + 1, responses, url =>
    match (pulls env responses url).out with
    | .error a => some ⟨(pulls env responses url).log, .error a⟩
    | .ok (responses2, url2) =>
      if url2 = "" then some ⟨(pulls env responses url).log, .ok responses2⟩
      else
        match fetchPullsLoop env fuel responses2 url2 with
        | none => none
        | some r2 => some ⟨(pulls env responses url).log ++ r2.log, r2.out⟩

/-- The two nested `range` loops at the end of `fetchPulls`. -/
def mergePages (responses : List pullsResponse) : pullsResponse :=
  responses.foldl (fun out r => r.foldl (fun o p => o ++ [p]) out) []

/-- The function `fetchPulls` of main.go; its `err` result is always nil. -/
def fetchPulls {M : Type} (env : Env M) (fuel : Nat) :
    Option (Run (Except String pullsResponse)) :=
  match fetchPullsLoop env fuel [] (pullsURL env) with
  | none => none
  | some r => some (Run.bind r (fun responses => Run.ret (.ok (mergePages responses))))

/-! ## Diff validator and submission decoder (main.go) -/

/-- The function `fetchFiles` of main.go. -/
def fetchFiles {M : Type} (env : Env M) (pull : Int) : Run (Except String files) :=
  Run.bind (Run.emit (.get .changedFiles (pullFilesURL env pull))) (fun _ =>
  match httpGet env (pullFilesURL env pull) with
  | .error e => Run.ret (.error e)
  | .ok res =>
    match res.Body with
    | .error e => Run.ret (.error e)
    | .ok bz => Run.ret (env.unmarshalFiles bz))

/-- The function `fetchRaw` of main.go. A bare `return` before `gtx` is assigned hands
back the zero message, with the value `err` holds at that point. -/
def fetchRaw {M : Type} (env : Env M) (url : String) : Run (Except String MsgCreateValidator) :=
  Run.bind (Run.emit (.get .rawContent url)) (fun _ =>
  match httpGet env url with
  | .error e => Run.ret (.error e)
  | .ok res =>
    match res.Body with
    | .error e => Run.ret (.error e)
    | .ok bz =>
      match env.unmarshalStdTx bz with
      | .error e => Run.ret (.error e)
      | .ok stdTx =>
        if stdTx.Msgs.length ≠ 1 then Run.ret (.ok MsgCreateValidator.zero)
        else
          match stdTx.Msgs with
          | [] => Run.abort (.panic "index out of range")
          | gentx :: _ =>
            match env.validateBasic gentx with
            | some e => Run.ret (.error e)
            | none =>
              match env.marshalJSON gentx with
              | .ok jsn => Run.ret (.ok (env.unmarshalMsg jsn))
              | .error _ => Run.ret (.ok MsgCreateValidator.zero))

/-! ## The pipeline (main.go) -/

/-- The `for _, pull := range pulls` loop of `main`, from the collection `gentxs`. -/
def mainLoop {M : Type} (env : Env M) : List pullRequest → GenTxs → Run GenTxs
  | [], gentxs => Run.ret gentxs
  | pull :: rest, gentxs =>
    if !(labels.isgentx pull.Labels) then mainLoop env rest gentxs
    else
      Run.bind (fetchFiles env pull.Number) (fun r =>
      match r with
      | .error e => Run.abort (.panic e)
      | .ok fs =>
        Run.bind (files.valid fs) (fun v =>
        if v then
          match fs with
          | [] => Run.abort (.panic "index out of range")
          | f0 :: _ =>
            Run.bind (fetchRaw env f0.RawURL) (fun r2 =>
            match r2 with
            | .error e => Run.abort (.panic e)
            | .ok gentx => mainLoop env rest (gentxs ++ [gentx]))
        else mainLoop env rest gentxs))

/-- The function `main` of main.go. -/
def main {M : Type} (env : Env M) (fuel : Nat) : Option (Run Unit) :=
  match fetchPulls env fuel with
  | none => none
  | some r =>
    some (
      Run.bind (Run.emit (.println "Fetching Pull Request Records...")) (fun _ =>
      Run.bind r (fun res =>
      match res with
      | .error e => Run.abort (.panic e)
      | .ok prs =>
        Run.bind (Run.emit (.println "Fetching and validatating gentxs...")) (fun _ =>
        Run.bind (mainLoop env prs []) (fun gentxs =>
        mainReport gentxs)))))

/-! ## Helper definitions for the statements -/

/-- The amount of `uatomToAtom gt.Value`, for a message whose conversion succeeds. -/
def convertedAmount (gt : MsgCreateValidator) : Int :=
  match uatomToAtom gt.Value with
  | .ok c => c.Amount.getD 0
  | .error _ => 0

/-- A message whose staked amount holds a non-negative integer. -/
def NonNegAmount (gt : MsgCreateValidator) : Prop :=
  ∃ a : Int, gt.Value.Amount = some a ∧ 0 ≤ a

/-- A message with the given moniker and staked coin; the other fields are empty. -/
def msgOf (moniker : String) (denom : String) (a : Int) : MsgCreateValidator :=
  ⟨moniker, "", "", "", "", "", "", "", "", "", "", ⟨denom, some a⟩⟩

/-- The listing endpoint serves the pages `pages`, in this order, from `url` on: every
request succeeds, every body is read and parses as a page, every page but the last carries
a next link to the following page, and the last page carries none. -/
def ServesChain {M : Type} (env : Env M) : String → List pullsResponse → Prop
  | _, [] => False
  | url, [p] =>
    ∃ res bz, httpGet env url = .ok res ∧ res.Body = .ok bz
      ∧ env.unmarshalPulls bz = .ok p ∧ res.next = none
  | url, p :: q :: ps =>
    ∃ res bz next, httpGet env url = .ok res ∧ res.Body = .ok bz
      ∧ env.unmarshalPulls bz = .ok p ∧ res.next = some next
      ∧ ServesChain env next (q :: ps)

/-! ## Example environments -/

/-- A pull request with the given number and label names. -/
def prOf (number : Int) (names : List String) : pullRequest :=
  ⟨"", number, number, "open", "", names.map (fun n => ⟨0, "", "", n, "", false⟩)⟩

/-- A changed file with the given name and raw-content URL. -/
def fileOf (name raw : String) : file :=
  ⟨"", name, "added", 0, 0, 0, "", raw, "", ""⟩

/-- A response with the given body, no next link and no rate-limit header. -/
def bodyOnly (body : String) : Response := ⟨.ok body, none, ""⟩

/-- An environment in which every request fails at the transport level; enclosed messages
are strings, and the clock stands at 1549999880 seconds. -/
def downEnv : Env String where
  ghapi := "t"
  transport := fun _ => .error "connection refused"
  unmarshalPulls := fun _ => .error "invalid character"
  unmarshalRatelimit := fun _ => .error "invalid character"
  unmarshalFiles := fun _ => .error "invalid character"
  unmarshalStdTx := fun _ => .error "invalid character"
  validateBasic := fun m => if m = "bad" then some "invalid message" else none
  marshalJSON := fun m => .ok m
  unmarshalMsg := fun jsn => msgOf jsn "uatom" 3000000
  untilReset := fun i => i - 1549999880

/-- The remote state of the scenario environment: a listing of one page, and five pull
requests. Number 1 changes one file with one valid message, number 2 has a files endpoint
that is down, number 3 changes two files, number 4 changes one file whose envelope encloses
no message, number 5 changes one file whose single message fails validation. -/
def scenarioTransport (url : String) : Except String Response :=
  if url = "https://api.github.com/repos/cosmos/launch/pulls?access_token=t" then
    .ok (bodyOnly "listing")
  else if url = "https://api.github.com/repos/cosmos/launch/pulls/1/files?access_token=t" then
    .ok (bodyOnly "files1")
  else if url = "https://api.github.com/repos/cosmos/launch/pulls/3/files?access_token=t" then
    .ok (bodyOnly "files3")
  else if url = "https://api.github.com/repos/cosmos/launch/pulls/4/files?access_token=t" then
    .ok (bodyOnly "files4")
  else if url = "https://api.github.com/repos/cosmos/launch/pulls/5/files?access_token=t" then
    .ok (bodyOnly "files5")
  else if url = "https://raw.example/1.json" then .ok (bodyOnly "tx1")
  else if url = "https://raw.example/4.json" then .ok (bodyOnly "tx4")
  else if url = "https://raw.example/5.json" then .ok (bodyOnly "tx5")
  else .error "connection refused"

/-- The scenario environment whose listing decodes to `prs`. -/
def scenarioEnv (prs : pullsResponse) : Env String where
  ghapi := "t"
  transport := scenarioTransport
  unmarshalPulls := fun bz => if bz = "listing" then .ok prs else .error "invalid character"
  unmarshalRatelimit := fun _ => .error "invalid character"
  unmarshalFiles := fun bz =>
    if bz = "files1" then .ok [fileOf "a.json" "https://raw.example/1.json"]
    else if bz = "files3" then
      .ok [fileOf "a.json" "https://raw.example/1.json", fileOf "b.json" "https://raw.example/4.json"]
    else if bz = "files4" then .ok [fileOf "d.json" "https://raw.example/4.json"]
    else if bz = "files5" then .ok [fileOf "e.json" "https://raw.example/5.json"]
    else .error "invalid character"
  unmarshalStdTx := fun bz =>
    if bz = "tx1" then .ok ⟨["Validator A"], "", [], ""⟩
    else if bz = "tx4" then .ok ⟨[], "", [], ""⟩
    else if bz = "tx5" then .ok ⟨["bad"], "", [], ""⟩
    else .error "invalid character"
  validateBasic := fun m => if m = "bad" then some "invalid message" else none
  marshalJSON := fun m => .ok m
  unmarshalMsg := fun jsn => msgOf jsn "uatom" 3000000
  untilReset := fun i => i - 1549999880

/-- The scenario environment, except that the files endpoint of pull request 2 answers
with one changed file. -/
def scenarioEnvUp (prs : pullsResponse) : Env String where
  ghapi := "t"
  transport := fun url =>
    if url = "https://api.github.com/repos/cosmos/launch/pulls/2/files?access_token=t" then
      .ok (bodyOnly "files1")
    else scenarioTransport url
  unmarshalPulls := (scenarioEnv prs).unmarshalPulls
  unmarshalRatelimit := (scenarioEnv prs).unmarshalRatelimit
  unmarshalFiles := (scenarioEnv prs).unmarshalFiles
  unmarshalStdTx := (scenarioEnv prs).unmarshalStdTx
  validateBasic := (scenarioEnv prs).validateBasic
  marshalJSON := (scenarioEnv prs).marshalJSON
  unmarshalMsg := (scenarioEnv prs).unmarshalMsg
  untilReset := (scenarioEnv prs).untilReset

/-- An environment whose listing has three pages of 2, 2 and 1 pull requests. -/
def pagedEnv : Env String where
  ghapi := "t"
  transport := fun url =>
    if url = "https://api.github.com/repos/cosmos/launch/pulls?access_token=t" then
      .ok ⟨.ok "page1", some "https://api.github.com/repositories/1/pulls?page=2", ""⟩
    else if url = "https://api.github.com/repositories/1/pulls?page=2" then
      .ok ⟨.ok "page2", some "https://api.github.com/repositories/1/pulls?page=3", ""⟩
    else if url = "https://api.github.com/repositories/1/pulls?page=3" then
      .ok ⟨.ok "page3", none, ""⟩
    else .error "connection refused"
  unmarshalPulls := fun bz =>
    if bz = "page1" then .ok [prOf 1 [], prOf 2 []]
    else if bz = "page2" then .ok [prOf 3 [], prOf 4 []]
    else if bz = "page3" then .ok [prOf 5 []]
    else .error "invalid character"
  unmarshalRatelimit := fun _ => .error "invalid character"
  unmarshalFiles := fun _ => .error "invalid character"
  unmarshalStdTx := fun _ => .error "invalid character"
  validateBasic := fun _ => none
  marshalJSON := fun m => .ok m
  unmarshalMsg := fun jsn => msgOf jsn "uatom" 3000000
  untilReset := fun i => i - 1549999880

/-- The paged environment, except that the request for the second page fails at the
transport level. -/
def pagedEnvBroken : Env String where
  ghapi := "t"
  transport := fun url =>
    if url = "https://api.github.com/repositories/1/pulls?page=2" then
      .error "connection reset"
    else pagedEnv.transport url
  unmarshalPulls := pagedEnv.unmarshalPulls
  unmarshalRatelimit := pagedEnv.unmarshalRatelimit
  unmarshalFiles := pagedEnv.unmarshalFiles
  unmarshalStdTx := pagedEnv.unmarshalStdTx
  validateBasic := pagedEnv.validateBasic
  marshalJSON := pagedEnv.marshalJSON
  unmarshalMsg := pagedEnv.unmarshalMsg
  untilReset := pagedEnv.untilReset

/-- The body of a not-found answer of the remote API: a JSON object with the fields
message and documentation_url, the latter not the rate-limiting reference. -/
def notFoundBody : String :=
  "\x7b\"message\":\"Not Found\",\"documentation_url\":\"https://developer.github.com/v3\"\x7d"

/-- An environment with the decoders of `encoding/json` on two bodies: the not-found
object, which is no page but fills a `ratelimit`, and a JSON string, which is neither. -/
def notFoundEnv : Env String where
  ghapi := "t"
  transport := fun _ => .ok ⟨.ok notFoundBody, none, "1550000000"⟩
  unmarshalPulls := fun bz =>
    if bz = notFoundBody then
      .error "json: cannot unmarshal object into Go value of type main.pullsResponse"
    else .error "json: cannot unmarshal string into Go value of type main.pullsResponse"
  unmarshalRatelimit := fun bz =>
    if bz = notFoundBody then .ok ⟨"Not Found", "https://developer.github.com/v3"⟩
    else .error "json: cannot unmarshal string into Go value of type main.ratelimit"
  unmarshalFiles := fun _ => .error "invalid character"
  unmarshalStdTx := fun _ => .error "invalid character"
  validateBasic := fun _ => none
  marshalJSON := fun m => .ok m
  unmarshalMsg := fun jsn => msgOf jsn "uatom" 3000000
  untilReset := fun i => i - 1549999880

/-- Three submissions of 10,000,000, 25,999,999 and 999,999 uatom. -/
def threeSubmissions : GenTxs :=
  [msgOf "Validator A" "uatom" 10000000, msgOf "Validator B" "uatom" 25999999,
   msgOf "Validator C" "uatom" 999999]

/-! ## Lemmas on sequencing -/

theorem Run.bind_ok {α β : Type} (r : Run α) (f : α → Run β) (x : α) (h : r.out = .ok x) :
    Run.bind r f = ⟨r.log ++ (f x).log, (f x).out⟩ := by
  unfold Run.bind
  rw [h]

theorem Run.bind_emit {β : Type} (e : Event) (f : Unit → Run β) :
    Run.bind (Run.emit e) f = ⟨e :: (f ()).log, (f ()).out⟩ := by
  simp [Run.bind, Run.emit]

theorem Run.bind_ret {α β : Type} (x : α) (f : α → Run β) :
    Run.bind (Run.ret x) f = f x := by
  simp [Run.bind, Run.ret]

/-! ## Lemmas on the conversion and the sum -/

theorem uatomToAtom_some (d : String) (a : Int) (h : 0 ≤ a) :
    uatomToAtom ⟨d, some a⟩ = .ok ⟨"atom", some (a / 1000000)⟩ := by
  have hq : Int.tdiv a 1000000 = a / 1000000 := Int.tdiv_eq_ediv h (by norm_num)
  have hn : ¬ (a / 1000000 < 0) := not_lt.mpr (Int.ediv_nonneg h (by norm_num))
  simp [uatomToAtom, SdkInt.Quo, NewInt, NewCoin, hq, hn]

theorem uatomToAtom_nonNeg (gt : MsgCreateValidator) (h : NonNegAmount gt) :
    uatomToAtom gt.Value = .ok ⟨"atom", some (convertedAmount gt)⟩ := by
  obtain ⟨a, ha, hpos⟩ := h
  have hv : gt.Value = ⟨gt.Value.Denom, some a⟩ := by
    cases hc : gt.Value with
    | mk dn am => rw [hc] at ha; simp at ha; simp [ha]
  have h1 : uatomToAtom gt.Value = .ok ⟨"atom", some (a / 1000000)⟩ := by
    rw [hv]; exact uatomToAtom_some _ a hpos
  simp [convertedAmount, h1]

theorem totalFrom_nonNeg (gtx : GenTxs) (h : ∀ gt ∈ gtx, NonNegAmount gt) (s : Int) :
    GenTxs.totalFrom gtx ⟨"atom", some s⟩
      = .ok ⟨"atom", some (s + (gtx.map convertedAmount).sum)⟩ := by
  induction gtx generalizing s with
  | nil => simp [GenTxs.totalFrom]
  | cons gt rest ih =>
    have hgt := uatomToAtom_nonNeg gt (h gt (List.mem_cons_self _ _))
    have hrest : ∀ g ∈ rest, NonNegAmount g := fun g hg => h g (List.mem_cons_of_mem _ hg)
    simp only [GenTxs.totalFrom, hgt, Coin.Add]
    simp only [ne_eq, not_true_eq_false, if_false]
    rw [ih hrest]
    simp [add_assoc]

theorem total_nonNeg (gtx : GenTxs) (h : ∀ gt ∈ gtx, NonNegAmount gt) :
    GenTxs.total gtx
      = ⟨[.total ⟨"atom", some (0 + (gtx.map convertedAmount).sum)⟩], .ok ()⟩ := by
  have h0 : NewInt64Coin "atom" 0 = .ok ⟨"atom", some 0⟩ := by
    simp [NewInt64Coin, NewCoin, NewInt]
  simp [GenTxs.total, h0, Run.ofPanic, Run.bind_ret, totalFrom_nonNeg gtx h 0, Run.emit]

theorem print_nonNeg (gtx : GenTxs) (h : ∀ gt ∈ gtx, NonNegAmount gt) :
    GenTxs.print gtx
      = ⟨gtx.map (fun gt => Event.allocation gt.Moniker ⟨"atom", some (convertedAmount gt)⟩),
          .ok ()⟩ := by
  induction gtx with
  | nil => simp [GenTxs.print, Run.ret]
  | cons gt rest ih =>
    have hgt := uatomToAtom_nonNeg gt (h gt (List.mem_cons_self _ _))
    have hrest : ∀ g ∈ rest, NonNegAmount g := fun g hg => h g (List.mem_cons_of_mem _ hg)
    simp [GenTxs.print, hgt, Run.ofPanic, Run.bind_ret, Run.bind_emit, ih hrest]

theorem mainReport_nonNeg (gtx : GenTxs) (h : ∀ gt ∈ gtx, NonNegAmount gt) :
    mainReport gtx
      = ⟨Event.println "Validator Allocations:"
          :: (gtx.map (fun gt => Event.allocation gt.Moniker ⟨"atom", some (convertedAmount gt)⟩)
            ++ [Event.submissions gtx.length,
                Event.total ⟨"atom", some (0 + (gtx.map convertedAmount).sum)⟩]),
          .ok ()⟩ := by
  simp [mainReport, Run.bind, Run.emit, print_nonNeg gtx h, total_nonNeg gtx h]

/-! ## Lemmas on the pipeline loop -/

theorem Run.bind_congr {α β : Type} (r : Run α) (f g : α → Run β)
    (h : ∀ x, r.out = .ok x → f x = g x) : Run.bind r f = Run.bind r g := by
  unfold Run.bind
  cases hr : r.out with
  | error a => rfl
  | ok x => simp [h x hr]

theorem Run.mem_bind_log {α β : Type} (r : Run α) (f : α → Run β) (e : Event)
    (h : e ∈ (Run.bind r f).log) : e ∈ r.log ∨ ∃ x, r.out = .ok x ∧ e ∈ (f x).log := by
  unfold Run.bind at h
  cases hr : r.out with
  | error a => rw [hr] at h; exact Or.inl h
  | ok x =>
    rw [hr] at h
    rcases List.mem_append.mp h with h1 | h2
    · exact Or.inl h1
    · exact Or.inr ⟨x, rfl, h2⟩

theorem fetchFiles_log {M : Type} (env : Env M) (pull : Int) :
    (fetchFiles env pull).log = [.get .changedFiles (pullFilesURL env pull)] := by
  unfold fetchFiles
  rw [Run.bind_emit]
  cases httpGet env (pullFilesURL env pull) with
  | error e => rfl
  | ok res =>
    cases hb : res.Body with
    | error e => simp [hb, Run.ret]
    | ok bz => simp [hb, Run.ret]

theorem fetchRaw_log {M : Type} (env : Env M) (url : String) :
    (fetchRaw env url).log = [.get .rawContent url] := by
  unfold fetchRaw
  rw [Run.bind_emit]
  cases httpGet env url with
  | error e => rfl
  | ok res =>
    cases hb : res.Body with
    | error e => simp [hb, Run.ret]
    | ok bz =>
      cases hs : env.unmarshalStdTx bz with
      | error e => simp [hb, hs, Run.ret]
      | ok stdTx =>
        by_cases hl : stdTx.Msgs.length = 1
        · cases hm : stdTx.Msgs with
          | nil => rw [hm] at hl; simp at hl
          | cons m tl =>
            cases hv : env.validateBasic m with
            | some e => simp [hb, hs, hm, hv, Run.ret]; rw [if_pos hl]
            | none =>
              cases hj : env.marshalJSON m with
              | error e => simp [hb, hs, hm, hv, hj, hl, Run.ret]
              | ok j => simp [hb, hs, hm, hv, hj, Run.ret]; rw [if_pos hl]
        · simp [hb, hs, hl, Run.ret]

theorem valid_true (f : files) (h : f.length = 1) : files.valid f = ⟨[], .ok true⟩ := by
  simp [files.valid, h, Run.ret]

theorem valid_false (f : files) (h : f.length ≠ 1) :
    files.valid f = ⟨[.printFiles f], .ok false⟩ := by
  simp [files.valid, h, Run.ret, Run.bind_emit]

theorem mainLoop_unlabeled {M : Type} (env : Env M) (pull : pullRequest)
    (rest : List pullRequest) (gentxs : GenTxs) (h : labels.isgentx pull.Labels = false) :
    mainLoop env (pull :: rest) gentxs = mainLoop env rest gentxs := by
  rw [mainLoop]; simp [h]

theorem mainLoop_labeled {M : Type} (env : Env M) (pull : pullRequest)
    (rest : List pullRequest) (gentxs : GenTxs) (h : labels.isgentx pull.Labels = true) :
    mainLoop env (pull :: rest) gentxs
      = Run.bind (fetchFiles env pull.Number) (fun r =>
        match r with
        | .error e => Run.abort (.panic e)
        | .ok fs =>
          Run.bind (files.valid fs) (fun v =>
          if v then
            match fs with
            | [] => Run.abort (.panic "index out of range")
            | f0 :: _ =>
              Run.bind (fetchRaw env f0.RawURL) (fun r2 =>
              match r2 with
              | .error e => Run.abort (.panic e)
              | .ok gentx => mainLoop env rest (gentxs ++ [gentx]))
          else mainLoop env rest gentxs)) := by
  rw [mainLoop]; simp [h]

/-- The step of the loop at a labelled pull request whose file list does not have length 1. -/
theorem mainLoop_invalid {M : Type} (env : Env M) (pull : pullRequest)
    (rest : List pullRequest) (gentxs : GenTxs) (f : files)
    (h : labels.isgentx pull.Labels = true)
    (hf : (fetchFiles env pull.Number).out = .ok (.ok f)) (hl : f.length ≠ 1) :
    mainLoop env (pull :: rest) gentxs
      = ⟨.get .changedFiles (pullFilesURL env pull.Number) :: .printFiles f
            :: (mainLoop env rest gentxs).log,
          (mainLoop env rest gentxs).out⟩ := by
  rw [mainLoop_labeled env pull rest gentxs h, Run.bind_ok _ _ _ hf, fetchFiles_log]
  simp [valid_false f hl, Run.bind]

/-- The step of the loop at a labelled pull request with one changed file. -/
theorem mainLoop_single {M : Type} (env : Env M) (pull : pullRequest)
    (rest : List pullRequest) (gentxs : GenTxs) (f : file)
    (h : labels.isgentx pull.Labels = true)
    (hf : (fetchFiles env pull.Number).out = .ok (.ok [f])) :
    mainLoop env (pull :: rest) gentxs
      = Run.bind ⟨[.get .changedFiles (pullFilesURL env pull.Number)], .ok ()⟩ (fun _ =>
        Run.bind (fetchRaw env f.RawURL) (fun r2 =>
          match r2 with
          | .error e => Run.abort (.panic e)
          | .ok gentx => mainLoop env rest (gentxs ++ [gentx]))) := by
  rw [mainLoop_labeled env pull rest gentxs h, Run.bind_ok _ _ _ hf, fetchFiles_log]
  simp [valid_true [f] rfl, Run.bind]

theorem mainLoop_filter {M : Type} (env : Env M) (prs : List pullRequest) (gentxs : GenTxs) :
    mainLoop env prs gentxs
      = mainLoop env (prs.filter (fun p => labels.isgentx p.Labels)) gentxs := by
  induction prs generalizing gentxs with
  | nil => rfl
  | cons p rest ih =>
    cases hp : labels.isgentx p.Labels with
    | false =>
      rw [mainLoop_unlabeled env p rest gentxs hp, List.filter_cons_of_neg (by simp [hp])]
      exact ih gentxs
    | true =>
      rw [List.filter_cons_of_pos (by simp [hp]), mainLoop_labeled env p rest gentxs hp,
        mainLoop_labeled env p _ gentxs hp]
      apply Run.bind_congr
      intro r _
      cases r with
      | error e => rfl
      | ok fs =>
        apply Run.bind_congr
        intro v _
        cases v with
        | false => simpa using ih gentxs
        | true =>
          cases fs with
          | nil => rfl
          | cons f0 tl =>
            simp only [if_true]
            apply Run.bind_congr
            intro r2 _
            cases r2 with
            | error e => rfl
            | ok gentx => exact ih _

theorem valid_out_true (f : files) (h : (files.valid f).out = .ok true) : f.length = 1 := by
  by_contra hl
  rw [valid_false f hl] at h
  simp at h

theorem mainLoop_get_log {M : Type} (env : Env M) (prs : List pullRequest) (gentxs : GenTxs)
    (ep : Endpoint) (url : String) (h : Event.get ep url ∈ (mainLoop env prs gentxs).log) :
    ∃ p ∈ prs, labels.isgentx p.Labels = true
      ∧ ((ep = .changedFiles ∧ url = pullFilesURL env p.Number)
        ∨ (ep = .rawContent
            ∧ ∃ f, (fetchFiles env p.Number).out = .ok (.ok [f]) ∧ url = f.RawURL)) := by
  induction prs generalizing gentxs with
  | nil => simp [mainLoop, Run.ret] at h
  | cons p rest ih =>
    have lift : (∃ q ∈ rest, labels.isgentx q.Labels = true
        ∧ ((ep = .changedFiles ∧ url = pullFilesURL env q.Number)
          ∨ (ep = .rawContent
              ∧ ∃ f, (fetchFiles env q.Number).out = .ok (.ok [f]) ∧ url = f.RawURL))) →
        ∃ q ∈ p :: rest, labels.isgentx q.Labels = true
        ∧ ((ep = .changedFiles ∧ url = pullFilesURL env q.Number)
          ∨ (ep = .rawContent
              ∧ ∃ f, (fetchFiles env q.Number).out = .ok (.ok [f]) ∧ url = f.RawURL)) := by
      rintro ⟨q, hq, hrest⟩
      exact ⟨q, List.mem_cons_of_mem _ hq, hrest⟩
    cases hp : labels.isgentx p.Labels with
    | false =>
      rw [mainLoop_unlabeled env p rest gentxs hp] at h
      exact lift (ih gentxs h)
    | true =>
      rw [mainLoop_labeled env p rest gentxs hp] at h
      rcases Run.mem_bind_log _ _ _ h with h1 | ⟨r, hr, h2⟩
      · rw [fetchFiles_log] at h1
        simp at h1
        exact ⟨p, List.mem_cons_self _ _, hp, Or.inl ⟨h1.1, h1.2⟩⟩
      · cases r with
        | error e => simp [Run.abort] at h2
        | ok fs =>
          simp only at h2
          rcases Run.mem_bind_log _ _ _ h2 with h3 | ⟨v, hv, h4⟩
          · by_cases hl : fs.length = 1
            · rw [valid_true fs hl] at h3; simp at h3
            · rw [valid_false fs hl] at h3; simp at h3
          · cases v with
            | false =>
              simp only [Bool.false_eq_true, if_false] at h4
              exact lift (ih gentxs h4)
            | true =>
              have hl := valid_out_true fs hv
              cases fs with
              | nil => simp at hl
              | cons f0 tl =>
                have htl : tl = [] := by simpa using hl
                subst htl
                simp only [if_true] at h4
                rcases Run.mem_bind_log _ _ _ h4 with h5 | ⟨r2, _, h6⟩
                · rw [fetchRaw_log] at h5
                  simp at h5
                  exact ⟨p, List.mem_cons_self _ _, hp, Or.inr ⟨h5.1, f0, hr, h5.2⟩⟩
                · cases r2 with
                  | error e => simp [Run.abort] at h6
                  | ok gentx => exact lift (ih _ h6)

theorem mainLoop_env_congr {M : Type} (env env2 : Env M) (prs : List pullRequest)
    (gentxs : GenTxs)
    (h : ∀ p ∈ prs, labels.isgentx p.Labels = true →
      fetchFiles env2 p.Number = fetchFiles env p.Number
      ∧ ∀ f, (fetchFiles env p.Number).out = .ok (.ok [f]) →
          fetchRaw env2 f.RawURL = fetchRaw env f.RawURL) :
    mainLoop env2 prs gentxs = mainLoop env prs gentxs := by
  induction prs generalizing gentxs with
  | nil => rfl
  | cons p rest ih =>
    have hrest : ∀ q ∈ rest, labels.isgentx q.Labels = true →
        fetchFiles env2 q.Number = fetchFiles env q.Number
        ∧ ∀ f, (fetchFiles env q.Number).out = .ok (.ok [f]) →
            fetchRaw env2 f.RawURL = fetchRaw env f.RawURL :=
      fun q hq => h q (List.mem_cons_of_mem _ hq)
    cases hp : labels.isgentx p.Labels with
    | false =>
      rw [mainLoop_unlabeled env p rest gentxs hp, mainLoop_unlabeled env2 p rest gentxs hp]
      exact ih gentxs hrest
    | true =>
      obtain ⟨hfiles, hraw⟩ := h p (List.mem_cons_self _ _) hp
      rw [mainLoop_labeled env p rest gentxs hp, mainLoop_labeled env2 p rest gentxs hp,
        hfiles]
      apply Run.bind_congr
      intro r hr
      cases r with
      | error e => rfl
      | ok fs =>
        apply Run.bind_congr
        intro v hv
        cases v with
        | false => simpa using ih gentxs hrest
        | true =>
          have hl := valid_out_true fs hv
          cases fs with
          | nil => rfl
          | cons f0 tl =>
            have htl : tl = [] := by simpa using hl
            subst htl
            simp only [if_true]
            rw [hraw f0 hr]
            apply Run.bind_congr
            intro r2 _
            cases r2 with
            | error e => rfl
            | ok gentx => exact ih _ hrest

theorem Run.bind_assoc {α β γ : Type} (r : Run α) (f : α → Run β) (g : β → Run γ) :
    Run.bind (Run.bind r f) g = Run.bind r (fun x => Run.bind (f x) g) := by
  cases r with
  | mk lg out =>
    cases out with
    | error a => simp [Run.bind]
    | ok x =>
      simp only [Run.bind]
      cases hfx : (f x).out with
      | error a => simp
      | ok y => simp

theorem Run.bind_abort {α β : Type} (a : Abort) (f : α → Run β) :
    Run.bind (Run.abort a) f = Run.abort a := by
  simp [Run.bind, Run.abort]

theorem mainLoop_append {M : Type} (env : Env M) (pre suf : List pullRequest)
    (gentxs : GenTxs) :
    mainLoop env (pre ++ suf) gentxs
      = Run.bind (mainLoop env pre gentxs) (fun g => mainLoop env suf g) := by
  induction pre generalizing gentxs with
  | nil => simp [mainLoop, Run.bind_ret]
  | cons p rest ih =>
    cases hp : labels.isgentx p.Labels with
    | false =>
      rw [List.cons_append, mainLoop_unlabeled env p _ gentxs hp,
        mainLoop_unlabeled env p rest gentxs hp]
      exact ih gentxs
    | true =>
      rw [List.cons_append, mainLoop_labeled env p _ gentxs hp,
        mainLoop_labeled env p rest gentxs hp, Run.bind_assoc]
      apply Run.bind_congr
      intro r _
      cases r with
      | error e => simp [Run.bind_abort]
      | ok fs =>
        simp only
        rw [Run.bind_assoc]
        apply Run.bind_congr
        intro v _
        cases v with
        | false => simpa using ih gentxs
        | true =>
          cases fs with
          | nil => simp [Run.bind_abort]
          | cons f0 tl =>
            simp only [if_true]
            rw [Run.bind_assoc]
            apply Run.bind_congr
            intro r2 _
            cases r2 with
            | error e => simp [Run.bind_abort]
            | ok gentx => exact ih _

/-- What `fetchRaw` returns for an envelope whose message count is not 1. -/
theorem fetchRaw_count {M : Type} (env : Env M) (url : String) (res : Response)
    (bz : String) (stdTx : StdTx M) (hg : httpGet env url = .ok res) (hb : res.Body = .ok bz)
    (hs : env.unmarshalStdTx bz = .ok stdTx) (hm : stdTx.Msgs.length ≠ 1) :
    fetchRaw env url = ⟨[.get .rawContent url], .ok (.ok MsgCreateValidator.zero)⟩ := by
  unfold fetchRaw
  rw [Run.bind_emit]
  simp [hg, hb, hs, hm, Run.ret]

/-- What `fetchRaw` returns for an envelope whose single message fails validation. -/
theorem fetchRaw_invalid {M : Type} (env : Env M) (url : String) (res : Response)
    (bz : String) (stdTx : StdTx M) (m : M) (e : String)
    (hg : httpGet env url = .ok res) (hb : res.Body = .ok bz)
    (hs : env.unmarshalStdTx bz = .ok stdTx) (hm : stdTx.Msgs = [m])
    (hv : env.validateBasic m = some e) :
    fetchRaw env url = ⟨[.get .rawContent url], .ok (.error e)⟩ := by
  unfold fetchRaw
  rw [Run.bind_emit]
  simp [hg, hb, hs, hm, hv, Run.ret]

/-- The step of the loop at a labelled, single-file candidate whose envelope does not
enclose exactly one message: the zero message is appended. -/
theorem mainLoop_count {M : Type} (env : Env M) (pull : pullRequest)
    (rest : List pullRequest) (gentxs : GenTxs) (f : file) (res : Response)
    (bz : String) (stdTx : StdTx M)
    (h : labels.isgentx pull.Labels = true)
    (hf : (fetchFiles env pull.Number).out = .ok (.ok [f]))
    (hg : httpGet env f.RawURL = .ok res) (hb : res.Body = .ok bz)
    (hs : env.unmarshalStdTx bz = .ok stdTx) (hm : stdTx.Msgs.length ≠ 1) :
    mainLoop env (pull :: rest) gentxs
      = ⟨.get .changedFiles (pullFilesURL env pull.Number) :: .get .rawContent f.RawURL
            :: (mainLoop env rest (gentxs ++ [MsgCreateValidator.zero])).log,
          (mainLoop env rest (gentxs ++ [MsgCreateValidator.zero])).out⟩ := by
  rw [mainLoop_single env pull rest gentxs f h hf,
    fetchRaw_count env f.RawURL res bz stdTx hg hb hs hm]
  simp [Run.bind]

theorem mainLoop_invalid_msg {M : Type} (env : Env M) (pull : pullRequest)
    (rest : List pullRequest) (gentxs : GenTxs) (f : file) (res : Response)
    (bz : String) (stdTx : StdTx M) (m : M) (e : String)
    (h : labels.isgentx pull.Labels = true)
    (hf : (fetchFiles env pull.Number).out = .ok (.ok [f]))
    (hg : httpGet env f.RawURL = .ok res) (hb : res.Body = .ok bz)
    (hs : env.unmarshalStdTx bz = .ok stdTx) (hm : stdTx.Msgs = [m])
    (hv : env.validateBasic m = some e) :
    mainLoop env (pull :: rest) gentxs
      = ⟨[.get .changedFiles (pullFilesURL env pull.Number), .get .rawContent f.RawURL],
          .error (.panic e)⟩ := by
  rw [mainLoop_single env pull rest gentxs f h hf,
    fetchRaw_invalid env f.RawURL res bz stdTx m e hg hb hs hm hv]
  simp [Run.bind, Run.abort]

theorem main_of_fetchPulls {M : Type} (env : Env M) (fuel : Nat) (lg : List Event)
    (prs : pullsResponse) (h : fetchPulls env fuel = some ⟨lg, .ok (.ok prs)⟩) :
    main env fuel
      = some ⟨.println "Fetching Pull Request Records..."
          :: (lg ++ .println "Fetching and validatating gentxs..."
            :: (Run.bind (mainLoop env prs []) mainReport).log),
          (Run.bind (mainLoop env prs []) mainReport).out⟩ := by
  unfold main
  rw [h]
  simp only [Run.bind_emit]
  simp [Run.bind]

/-! ## Lemmas on the pagination walk -/

theorem httpGet_ok_ne_empty {M : Type} (env : Env M) (url : String) (res : Response)
    (h : httpGet env url = .ok res) : url ≠ "" := by
  intro hu
  simp [httpGet, hu] at h

/-- One iteration of the walk on a page that is served and parses. -/
theorem pulls_ok {M : Type} (env : Env M) (resp : List pullsResponse) (url : String)
    (res : Response) (bz : String) (p : pullsResponse)
    (hg : httpGet env url = .ok res) (hb : res.Body = .ok bz)
    (hp : env.unmarshalPulls bz = .ok p) :
    pulls env resp url
      = ⟨[.get .listing url], .ok (resp ++ [p], res.next.getD "")⟩ := by
  unfold pulls
  rw [Run.bind_emit]
  simp only [hg, processPullResponse, hb, hp, Run.bind_ret]
  cases res.next with
  | none => rfl
  | some u => rfl

/-- One iteration of the walk on a request that fails at the transport level. -/
theorem pulls_transport_error {M : Type} (env : Env M) (resp : List pullsResponse)
    (url : String) (e : String) (hg : httpGet env url = .error e) :
    pulls env resp url = ⟨[.get .listing url], .ok ([], "")⟩ := by
  unfold pulls
  rw [Run.bind_emit]
  simp only [hg]
  rfl

theorem fetchPullsLoop_chain {M : Type} (env : Env M) (pages : List pullsResponse) :
    ∀ (fuel : Nat) (acc : List pullsResponse) (url : String),
      ServesChain env url pages → pages.length ≤ fuel →
      ∃ urls : List String, urls.length = pages.length ∧ urls.head? = some url
        ∧ fetchPullsLoop env fuel acc url
            = some ⟨urls.map (Event.get .listing), .ok (acc ++ pages)⟩ := by
  induction pages with
  | nil => intro fuel acc url h; simp [ServesChain] at h
  | cons p ps ih =>
    intro fuel acc url h hfuel
    cases fuel with
    | zero => simp at hfuel
    | succ n =>
      cases ps with
      | nil =>
        simp only [ServesChain] at h
        obtain ⟨res, bz, hg, hb, hp, hnext⟩ := h
        refine ⟨[url], rfl, rfl, ?_⟩
        simp [fetchPullsLoop, pulls_ok env acc url res bz p hg hb hp, hnext]
      | cons q qs =>
        simp only [ServesChain] at h
        obtain ⟨res, bz, next, hg, hb, hp, hnext, hrest⟩ := h
        have hne : next ≠ "" := by
          cases qs with
          | nil =>
            simp only [ServesChain] at hrest
            obtain ⟨r2, _, hg2, _⟩ := hrest
            exact httpGet_ok_ne_empty env next r2 hg2
          | cons q2 qs2 =>
            simp only [ServesChain] at hrest
            obtain ⟨r2, _, _, hg2, _⟩ := hrest
            exact httpGet_ok_ne_empty env next r2 hg2
        have hlen : (q :: qs).length ≤ n := by simpa using hfuel
        obtain ⟨urls, hul, huh, hloop⟩ := ih n (acc ++ [p]) next hrest hlen
        refine ⟨url :: urls, by simp [hul], rfl, ?_⟩
        simp [fetchPullsLoop, pulls_ok env acc url res bz p hg hb hp, hnext, hne, hloop]

theorem foldl_append_single {α : Type} (r out : List α) :
    r.foldl (fun o p => o ++ [p]) out = out ++ r := by
  induction r generalizing out with
  | nil => simp
  | cons x xs ih => simp [ih]

theorem mergePages_from (responses : List pullsResponse) (acc : pullsResponse) :
    responses.foldl (fun out r => r.foldl (fun o p => o ++ [p]) out) acc
      = acc ++ responses.flatten := by
  have hfun : (fun (out r : pullsResponse) => r.foldl (fun o p => o ++ [p]) out)
      = fun out r => out ++ r := by
    funext out r
    exact foldl_append_single r out
  rw [hfun]
  induction responses generalizing acc with
  | nil => simp
  | cons r rs ih => simp [ih, List.append_assoc]

theorem mergePages_eq (responses : List pullsResponse) :
    mergePages responses = responses.flatten := by
  simp [mergePages, mergePages_from]

/-- What `processPullResponse` does with a body that is no page but fills a `ratelimit`:
it exits with code 1 after printing the wait, whatever the documentation URL is. -/
theorem processPullResponse_ratelimit {M : Type} (env : Env M) (res : Response)
    (bz e : String) (rl : ratelimit) (i : Int)
    (hb : res.Body = .ok bz) (hp : env.unmarshalPulls bz = .error e)
    (hr : env.unmarshalRatelimit bz = .ok rl) (hi : ParseInt res.rateLimitReset = .ok i) :
    processPullResponse env res = ⟨[.rateLimitLeft (env.untilReset i)], .error (.exit 1)⟩ := by
  simp [processPullResponse, hb, hp, hr, left, hi, Run.bind, Run.ret, Run.emit, Run.abort]

/-! ## C1: unit conversion -/

/-- C1. For every coin with a non-negative integer amount `a`, in any denomination,
`uatomToAtom` returns the coin of denomination atom whose amount is `a` divided by
1,000,000 with truncating division, which is the floor of the quotient; 5,000,000
converts to 5 and 4,999,999 converts to 4. -/
theorem uatomToAtom_spec (d : String) (a : Int) (h : 0 ≤ a) :
    uatomToAtom ⟨d, some a⟩ = .ok ⟨"atom", some (Int.tdiv a 1000000)⟩
    ∧ Int.tdiv a 1000000 = ⌊(a : ℚ) / 1000000⌋
    ∧ uatomToAtom ⟨d, some 5000000⟩ = .ok ⟨"atom", some 5⟩
    ∧ uatomToAtom ⟨d, some 4999999⟩ = .ok ⟨"atom", some 4⟩ := by
  have hq : Int.tdiv a 1000000 = a / 1000000 := Int.tdiv_eq_ediv h (by norm_num)
  refine ⟨?_, ?_, ?_, ?_⟩
  · rw [hq]; exact uatomToAtom_some d a h
  · rw [hq]
    have hf := Rat.floor_intCast_div_natCast a 1000000
    simpa using hf.symm
  · rw [uatomToAtom_some d 5000000 (by norm_num)]; norm_num
  · rw [uatomToAtom_some d 4999999 (by norm_num)]; norm_num

/-- Witness for C1 at the coin of 7,654,321 uatom. -/
theorem uatomToAtom_spec_witness :
    (0 : Int) ≤ 7654321 ∧ uatomToAtom ⟨"uatom", some 7654321⟩ = .ok ⟨"atom", some 7⟩ :=
  ⟨by norm_num, by
    have h := (uatomToAtom_spec "uatom" 7654321 (by norm_num)).1
    rw [h]; rfl⟩

/-! ## C2: aggregate -/

/-- C2. For every collection of messages with non-negative staked amounts, `GenTxs.total`
prints the atom coin whose amount is 0 plus the sum, over the collection, of the amounts
of `uatomToAtom gt.Value`, and the report of `main` states the count `len(gtx)`. For the
empty collection the total is 0 atom and the count is 0; for three submissions whose
converted amounts are 10, 25 and 0 the total is 35 and the count is 3. -/
theorem total_spec (gtx : GenTxs) (h : ∀ gt ∈ gtx, NonNegAmount gt) :
    GenTxs.total gtx
        = ⟨[.total ⟨"atom", some (0 + (gtx.map convertedAmount).sum)⟩], .ok ()⟩
    ∧ (∀ gt ∈ gtx, uatomToAtom gt.Value = .ok ⟨"atom", some (convertedAmount gt)⟩)
    ∧ mainReport gtx
        = ⟨Event.println "Validator Allocations:"
            :: (gtx.map (fun gt =>
                  Event.allocation gt.Moniker ⟨"atom", some (convertedAmount gt)⟩)
              ++ [Event.submissions gtx.length,
                  Event.total ⟨"atom", some (0 + (gtx.map convertedAmount).sum)⟩]),
            .ok ()⟩
    ∧ GenTxs.total [] = ⟨[.total ⟨"atom", some 0⟩], .ok ()⟩
    ∧ mainReport []
        = ⟨[.println "Validator Allocations:", .submissions 0, .total ⟨"atom", some 0⟩],
            .ok ()⟩
    ∧ (gtx.map convertedAmount = [10, 25, 0] →
        GenTxs.total gtx = ⟨[.total ⟨"atom", some 35⟩], .ok ()⟩
        ∧ Event.submissions 3 ∈ (mainReport gtx).log
        ∧ gtx.length = 3) := by
  have hnil : ∀ gt ∈ ([] : GenTxs), NonNegAmount gt := by intro gt hgt; cases hgt
  refine ⟨total_nonNeg gtx h, fun gt hgt => uatomToAtom_nonNeg gt (h gt hgt),
    mainReport_nonNeg gtx h, ?_, ?_, ?_⟩
  · simpa using total_nonNeg [] hnil
  · simpa using mainReport_nonNeg [] hnil
  · intro h3
    have hlen : gtx.length = 3 := by
      have := congrArg List.length h3
      simpa using this
    refine ⟨?_, ?_, hlen⟩
    · rw [total_nonNeg gtx h, h3]; rfl
    · rw [mainReport_nonNeg gtx h, hlen]; simp

/-- Witness for C2 at three submissions of 10,000,000, 25,999,999 and 999,999 uatom. -/
theorem total_spec_witness :
    (∀ gt ∈ threeSubmissions, NonNegAmount gt)
    ∧ GenTxs.total threeSubmissions = ⟨[.total ⟨"atom", some 35⟩], .ok ()⟩
    ∧ Event.submissions 3 ∈ (mainReport threeSubmissions).log :=
  have hw : ∀ gt ∈ threeSubmissions, NonNegAmount gt := by
    intro gt hgt
    simp only [threeSubmissions, List.mem_cons, List.mem_singleton, List.not_mem_nil,
      or_false] at hgt
    rcases hgt with rfl | rfl | rfl
    · exact ⟨10000000, rfl, by norm_num⟩
    · exact ⟨25999999, rfl, by norm_num⟩
    · exact ⟨999999, rfl, by norm_num⟩
  have h3 := (total_spec threeSubmissions hw).2.2.2.2.2 (by rfl)
  ⟨hw, h3.1, h3.2.1⟩

/-! ## C3: label filter -/

/-- C3. For every label list, `labels.isgentx` returns true if and only if at least one
label has a `Name` exactly equal to the string gentx; it returns false for the empty list
and for a label named GenTx or named gentx followed by a blank. -/
theorem isgentx_spec (l : labels) :
    (labels.isgentx l = true ↔ ∃ x ∈ l, x.Name = "gentx")
    ∧ labels.isgentx [] = false
    ∧ (∀ (i : Int) (n u c : String) (d : Bool),
        labels.isgentx [⟨i, n, u, "GenTx", c, d⟩] = false)
    ∧ (∀ (i : Int) (n u c : String) (d : Bool),
        labels.isgentx [⟨i, n, u, "gentx ", c, d⟩] = false) := by
  refine ⟨?_, rfl, ?_, ?_⟩
  · induction l with
    | nil => simp [labels.isgentx]
    | cons x rest ih =>
      by_cases hx : x.Name = "gentx"
      · simp [labels.isgentx, label.isgentx, hx]
      · simp [labels.isgentx, label.isgentx, hx, ih]
  · intro i n u c d
    simp [labels.isgentx, label.isgentx]
  · intro i n u c d
    simp [labels.isgentx, label.isgentx]

/-! ## C4: diff validator -/

/-- C4. For every changed-file list `f`, `files.valid` returns true if and only if
`len(f) == 1`; for every other length it returns false and raises no error, and the loop
of `main` then goes on with the next pull request from the unchanged collection. -/
theorem files_valid_spec {M : Type} (f : files) :
    ((files.valid f).out = .ok true ↔ f.length = 1)
    ∧ (f.length ≠ 1 → files.valid f = ⟨[.printFiles f], .ok false⟩)
    ∧ (∀ a : Abort, (files.valid f).out ≠ .error a)
    ∧ (∀ (env : Env M) (pull : pullRequest) (rest : List pullRequest) (gentxs : GenTxs),
        labels.isgentx pull.Labels = true →
        (fetchFiles env pull.Number).out = .ok (.ok f) →
        f.length ≠ 1 →
        mainLoop env (pull :: rest) gentxs
          = ⟨.get .changedFiles (pullFilesURL env pull.Number) :: .printFiles f
                :: (mainLoop env rest gentxs).log,
              (mainLoop env rest gentxs).out⟩) := by
  refine ⟨⟨valid_out_true f, fun hl => by rw [valid_true f hl]⟩, valid_false f, ?_, ?_⟩
  · intro a
    by_cases hl : f.length = 1
    · rw [valid_true f hl]; simp
    · rw [valid_false f hl]; simp
  · intro env pull rest gentxs h hf hl
    exact mainLoop_invalid env pull rest gentxs f h hf hl

/-- Witness for C4: pull request 3 of the scenario changes two files; it is excluded and
pull request 1, which follows it, is processed. -/
theorem files_valid_spec_witness :
    (mainLoop (scenarioEnv []) [prOf 3 ["gentx"], prOf 1 ["gentx"]] []).out
      = .ok [msgOf "Validator A" "uatom" 3000000] :=
  have h := (files_valid_spec
      [fileOf "a.json" "https://raw.example/1.json", fileOf "b.json" "https://raw.example/4.json"]
    ).2.2.2 (scenarioEnv []) (prOf 3 ["gentx"]) [prOf 1 ["gentx"]] [] (by rfl) (by rfl)
      (by decide)
  by rw [h]; rfl

/-! ## C6: envelopes that do not enclose exactly one message -/

/-- C6, the code at the failing input. Pull request 4 of the scenario is labelled and
changes one file, whose content decodes to an envelope with no enclosed message.
`fetchRaw` returns the zero message with a nil error, the loop of `main` appends it to the
collection, and the report then fails on its empty amount. -/
theorem empty_envelope_is_appended :
    fetchRaw (scenarioEnv []) "https://raw.example/4.json"
        = ⟨[.get .rawContent "https://raw.example/4.json"], .ok (.ok MsgCreateValidator.zero)⟩
    ∧ (mainLoop (scenarioEnv []) [prOf 4 ["gentx"]] []).out = .ok [MsgCreateValidator.zero]
    ∧ (mainLoop (scenarioEnv []) [prOf 1 ["gentx"], prOf 4 ["gentx"]] []).out
        = .ok [msgOf "Validator A" "uatom" 3000000, MsgCreateValidator.zero]
    ∧ (main (scenarioEnv [prOf 4 ["gentx"]]) 1).map (fun r => r.out)
        = some (.error (.panic "nil pointer dereference")) := by
  refine ⟨rfl, rfl, rfl, rfl⟩

/-! ## C7: failed structural validation -/

/-- C7 as stated fails. Pull request 5 of the scenario is labelled and changes one file,
whose envelope encloses one message that fails `ValidateBasic`. The run panics with the
validation error: it does not complete, and pull request 1, which follows, is never
fetched. -/
theorem validation_failure_counterexample :
    main (scenarioEnv [prOf 5 ["gentx"], prOf 1 ["gentx"]]) 1
      = some ⟨[.println "Fetching Pull Request Records...",
               .get .listing "https://api.github.com/repos/cosmos/launch/pulls?access_token=t",
               .println "Fetching and validatating gentxs...",
               .get .changedFiles
                 "https://api.github.com/repos/cosmos/launch/pulls/5/files?access_token=t",
               .get .rawContent "https://raw.example/5.json"],
              .error (.panic "invalid message")⟩
    ∧ ¬ ∃ (fuel : Nat) (lg : List Event),
        main (scenarioEnv [prOf 5 ["gentx"], prOf 1 ["gentx"]]) fuel = some ⟨lg, .ok ()⟩ := by
  have h1 : main (scenarioEnv [prOf 5 ["gentx"], prOf 1 ["gentx"]]) 1
      = some ⟨[.println "Fetching Pull Request Records...",
               .get .listing "https://api.github.com/repos/cosmos/launch/pulls?access_token=t",
               .println "Fetching and validatating gentxs...",
               .get .changedFiles
                 "https://api.github.com/repos/cosmos/launch/pulls/5/files?access_token=t",
               .get .rawContent "https://raw.example/5.json"],
              .error (.panic "invalid message")⟩ := rfl
  refine ⟨h1, ?_⟩
  rintro ⟨fuel, lg, h⟩
  cases fuel with
  | zero => simp [main, fetchPulls, fetchPullsLoop] at h
  | succ n =>
    have h2 : main (scenarioEnv [prOf 5 ["gentx"], prOf 1 ["gentx"]]) (n + 1)
        = main (scenarioEnv [prOf 5 ["gentx"], prOf 1 ["gentx"]]) 1 := rfl
    rw [h2, h1] at h
    simp at h

/-- C7, amended. For every labelled candidate with one changed file whose envelope encloses
exactly one message that fails `ValidateBasic`, `fetchRaw` returns the validation error,
the loop of `main` panics with it, and the run is aborted at that candidate: no later pull
request is processed, the candidate is not added to the collection and no report is
printed. -/
theorem validation_failure_aborts {M : Type} (env : Env M) (pre : List pullRequest)
    (pull : pullRequest) (rest : List pullRequest) (f : file) (res : Response) (bz : String)
    (stdTx : StdTx M) (m : M) (e : String) (fuel : Nat) (lg : List Event) (g : GenTxs)
    (h : labels.isgentx pull.Labels = true)
    (hf : (fetchFiles env pull.Number).out = .ok (.ok [f]))
    (hg : httpGet env f.RawURL = .ok res) (hb : res.Body = .ok bz)
    (hs : env.unmarshalStdTx bz = .ok stdTx) (hm : stdTx.Msgs = [m])
    (hv : env.validateBasic m = some e)
    (hpulls : fetchPulls env fuel = some ⟨lg, .ok (.ok (pre ++ pull :: rest))⟩)
    (hpre : (mainLoop env pre []).out = .ok g) :
    fetchRaw env f.RawURL = ⟨[.get .rawContent f.RawURL], .ok (.error e)⟩
    ∧ mainLoop env (pull :: rest) g
        = ⟨[.get .changedFiles (pullFilesURL env pull.Number), .get .rawContent f.RawURL],
            .error (.panic e)⟩
    ∧ main env fuel
        = some ⟨.println "Fetching Pull Request Records..."
            :: (lg ++ .println "Fetching and validatating gentxs..."
              :: ((mainLoop env pre []).log
                ++ [.get .changedFiles (pullFilesURL env pull.Number),
                    .get .rawContent f.RawURL])),
            .error (.panic e)⟩ := by
  have hstep := mainLoop_invalid_msg env pull rest g f res bz stdTx m e h hf hg hb hs hm hv
  refine ⟨fetchRaw_invalid env f.RawURL res bz stdTx m e hg hb hs hm hv, hstep, ?_⟩
  rw [main_of_fetchPulls env fuel lg _ hpulls, mainLoop_append,
    Run.bind_ok _ _ g hpre, hstep]
  simp [Run.bind]

/-- Witness for C7 amended: in the scenario, pull request 1 is accepted, pull request 5
fails validation, and the run panics before the third pull request. -/
theorem validation_failure_aborts_witness :
    main (scenarioEnv [prOf 1 ["gentx"], prOf 5 ["gentx"], prOf 1 ["gentx"]]) 1
      = some ⟨[.println "Fetching Pull Request Records...",
               .get .listing "https://api.github.com/repos/cosmos/launch/pulls?access_token=t",
               .println "Fetching and validatating gentxs...",
               .get .changedFiles
                 "https://api.github.com/repos/cosmos/launch/pulls/1/files?access_token=t",
               .get .rawContent "https://raw.example/1.json",
               .get .changedFiles
                 "https://api.github.com/repos/cosmos/launch/pulls/5/files?access_token=t",
               .get .rawContent "https://raw.example/5.json"],
              .error (.panic "invalid message")⟩ :=
  (validation_failure_aborts
    (scenarioEnv [prOf 1 ["gentx"], prOf 5 ["gentx"], prOf 1 ["gentx"]])
    [prOf 1 ["gentx"]] (prOf 5 ["gentx"]) [prOf 1 ["gentx"]]
    (fileOf "e.json" "https://raw.example/5.json") (bodyOnly "tx5") "tx5"
    ⟨["bad"], "", [], ""⟩ "bad" "invalid message" 1
    [.get .listing "https://api.github.com/repos/cosmos/launch/pulls?access_token=t"]
    [msgOf "Validator A" "uatom" 3000000]
    rfl rfl rfl rfl rfl rfl rfl rfl rfl).2.2

/-! ## C10: the label filter comes before any further request -/

/-- C10. In the loop of `main`, every request to the changed-files endpoint is for the
number of a pull request on which `labels.isgentx` is true, and every request for raw
content is for the single changed file of such a pull request. Unlabelled pull requests
are no-ops of the loop, and the collection and the outcome of the run are the same in any
two environments that answer alike for the labelled pull requests, however they differ
on the others. -/
theorem unlabeled_never_fetched {M : Type} (env : Env M) (prs : List pullRequest)
    (gentxs : GenTxs) :
    (∀ url, Event.get .changedFiles url ∈ (mainLoop env prs gentxs).log →
      ∃ p ∈ prs, labels.isgentx p.Labels = true ∧ url = pullFilesURL env p.Number)
    ∧ (∀ url, Event.get .rawContent url ∈ (mainLoop env prs gentxs).log →
      ∃ p ∈ prs, labels.isgentx p.Labels = true
        ∧ ∃ f, (fetchFiles env p.Number).out = .ok (.ok [f]) ∧ url = f.RawURL)
    ∧ mainLoop env prs gentxs
        = mainLoop env (prs.filter (fun p => labels.isgentx p.Labels)) gentxs
    ∧ (∀ env2 : Env M,
        (∀ p ∈ prs, labels.isgentx p.Labels = true →
          fetchFiles env2 p.Number = fetchFiles env p.Number
          ∧ ∀ f, (fetchFiles env p.Number).out = .ok (.ok [f]) →
              fetchRaw env2 f.RawURL = fetchRaw env f.RawURL) →
        mainLoop env2 prs gentxs = mainLoop env prs gentxs
        ∧ ∀ fuel lg, gentxs = [] →
            fetchPulls env fuel = some ⟨lg, .ok (.ok prs)⟩ →
            fetchPulls env2 fuel = some ⟨lg, .ok (.ok prs)⟩ →
            main env2 fuel = main env fuel) := by
  refine ⟨?_, ?_, mainLoop_filter env prs gentxs, ?_⟩
  · intro url h
    obtain ⟨p, hp, hl, hcase⟩ := mainLoop_get_log env prs gentxs _ url h
    rcases hcase with ⟨_, hu⟩ | ⟨hep, _⟩
    · exact ⟨p, hp, hl, hu⟩
    · cases hep
  · intro url h
    obtain ⟨p, hp, hl, hcase⟩ := mainLoop_get_log env prs gentxs _ url h
    rcases hcase with ⟨hep, _⟩ | ⟨_, hf⟩
    · cases hep
    · exact ⟨p, hp, hl, hf⟩
  · intro env2 h
    have hloop := mainLoop_env_congr env env2 prs gentxs h
    refine ⟨hloop, ?_⟩
    intro fuel lg hg h1 h2
    subst hg
    rw [main_of_fetchPulls env fuel lg prs h1, main_of_fetchPulls env2 fuel lg prs h2, hloop]

/-- Witness for C10: the two scenario environments differ on the files endpoint of the
unlabelled pull request 2, which is down in one and answers in the other; the loop gives
the same run in both. -/
theorem unlabeled_never_fetched_witness :
    (fetchFiles (scenarioEnvUp []) 2).out ≠ (fetchFiles (scenarioEnv []) 2).out
    ∧ mainLoop (scenarioEnvUp []) [prOf 1 ["gentx"], prOf 2 ["GenTx"], prOf 3 ["gentx"]] []
        = mainLoop (scenarioEnv []) [prOf 1 ["gentx"], prOf 2 ["GenTx"], prOf 3 ["gentx"]] [] :=
  ⟨by
    have h1 : (fetchFiles (scenarioEnvUp []) 2).out
        = .ok (.ok [fileOf "a.json" "https://raw.example/1.json"]) := rfl
    have h2 : (fetchFiles (scenarioEnv []) 2).out = .ok (.error "connection refused") := rfl
    rw [h1, h2]; simp,
   ((unlabeled_never_fetched (scenarioEnv [])
      [prOf 1 ["gentx"], prOf 2 ["GenTx"], prOf 3 ["gentx"]] []).2.2.2 (scenarioEnvUp [])
      (by
        intro p hp hl
        simp only [List.mem_cons, List.mem_singleton, List.not_mem_nil, or_false] at hp
        rcases hp with rfl | rfl | rfl
        · refine ⟨rfl, ?_⟩
          intro f hf
          have hf2 : (fetchFiles (scenarioEnv []) (prOf 1 ["gentx"]).Number).out
              = .ok (.ok [fileOf "a.json" "https://raw.example/1.json"]) := rfl
          rw [hf2] at hf
          simp only [Except.ok.injEq, List.cons.injEq, and_true] at hf
          subst hf
          rfl
        · exact absurd hl (by decide)
        · refine ⟨rfl, ?_⟩
          intro f hf
          have hf2 : (fetchFiles (scenarioEnv []) (prOf 3 ["gentx"]).Number).out
              = .ok (.ok [fileOf "a.json" "https://raw.example/1.json",
                  fileOf "b.json" "https://raw.example/4.json"]) := rfl
          rw [hf2] at hf
          simp at hf)).1⟩

/-! ## C5: pagination -/

/-- C5. For every finite chain of pages served by the listing endpoint from the starting
URL, each page but the last carrying a next link to the following page and the last
carrying none, with every request succeeding and parsing, `fetchPulls` issues exactly one
request per page and returns the concatenation of the pages in order; for pages of 2, 2
and 1 summaries it returns the 5 summaries in the original order after 3 requests. -/
theorem fetchPulls_chain {M : Type} (env : Env M) (pages : List pullsResponse) (fuel : Nat)
    (h : ServesChain env (pullsURL env) pages) (hfuel : pages.length ≤ fuel) :
    ∃ urls : List String, urls.length = pages.length ∧ urls.head? = some (pullsURL env)
      ∧ fetchPulls env fuel
          = some ⟨urls.map (Event.get .listing), .ok (.ok pages.flatten)⟩
      ∧ (∀ p1 p2 p3 : pullsResponse, pages = [p1, p2, p3] →
          p1.length = 2 → p2.length = 2 → p3.length = 1 →
          pages.flatten = p1 ++ p2 ++ p3 ∧ pages.flatten.length = 5 ∧ urls.length = 3) := by
  obtain ⟨urls, hul, huh, hloop⟩ := fetchPullsLoop_chain env pages fuel [] _ h hfuel
  refine ⟨urls, hul, huh, ?_, ?_⟩
  · simp [fetchPulls, hloop, Run.bind, Run.ret, mergePages_eq]
  · intro p1 p2 p3 hp h1 h2 h3
    subst hp
    refine ⟨by simp, by simp [h1, h2, h3], by simpa using hul⟩

/-- Witness for C5: the paged environment serves pages of 2, 2 and 1 pull requests. -/
theorem fetchPulls_chain_witness :
    ServesChain pagedEnv (pullsURL pagedEnv)
        [[prOf 1 [], prOf 2 []], [prOf 3 [], prOf 4 []], [prOf 5 []]]
    ∧ ∃ urls : List String, urls.length = 3
      ∧ fetchPulls pagedEnv 3
          = some ⟨urls.map (Event.get .listing),
              .ok (.ok [prOf 1 [], prOf 2 [], prOf 3 [], prOf 4 [], prOf 5 []])⟩ :=
  have hc : ServesChain pagedEnv (pullsURL pagedEnv)
      [[prOf 1 [], prOf 2 []], [prOf 3 [], prOf 4 []], [prOf 5 []]] := by
    simp only [ServesChain]
    exact ⟨_, _, _, rfl, rfl, rfl, rfl, _, _, _, rfl, rfl, rfl, rfl, _, _, rfl, rfl, rfl, rfl⟩
  have hw := fetchPulls_chain pagedEnv
    [[prOf 1 [], prOf 2 []], [prOf 3 [], prOf 4 []], [prOf 5 []]] 3 hc (by decide)
  ⟨hc, by
    obtain ⟨urls, hul, _, hf, _⟩ := hw
    exact ⟨urls, by simpa using hul, by simpa using hf⟩⟩

/-! ## C8: transport failure in the walk -/

/-- C8, the code at the failing input. When the request for the first page fails at the
transport level, `fetchPulls` returns the empty list with a nil error and `main` prints a
report of zero submissions. When the request for the second page fails, the first page is
dropped as well and the result is the same. -/
theorem transport_failure_gives_empty_report :
    httpGet downEnv (pullsURL downEnv) = .error "connection refused"
    ∧ fetchPulls downEnv 1
        = some ⟨[.get .listing "https://api.github.com/repos/cosmos/launch/pulls?access_token=t"],
            .ok (.ok [])⟩
    ∧ main downEnv 1
        = some ⟨[.println "Fetching Pull Request Records...",
                 .get .listing "https://api.github.com/repos/cosmos/launch/pulls?access_token=t",
                 .println "Fetching and validatating gentxs...",
                 .println "Validator Allocations:",
                 .submissions 0,
                 .total ⟨"atom", some 0⟩], .ok ()⟩
    ∧ httpGet pagedEnvBroken "https://api.github.com/repositories/1/pulls?page=2"
        = .error "connection reset"
    ∧ fetchPulls pagedEnvBroken 2
        = some ⟨[.get .listing "https://api.github.com/repos/cosmos/launch/pulls?access_token=t",
                 .get .listing "https://api.github.com/repositories/1/pulls?page=2"],
            .ok (.ok [])⟩
    ∧ (main pagedEnvBroken 2).map (fun r => r.out) = some (.ok ()) := by
  refine ⟨rfl, rfl, rfl, rfl, rfl, rfl⟩

/-! ## C9: rate-limit detection -/

/-- C9, the code at the failing input. The body of a not-found answer is no page but
fills a `ratelimit` whose documentation URL is not the rate-limiting reference, so that
`hit` is false on it; `processPullResponse` still prints the wait and exits with code 1.
On a body that fits neither shape, the error handed back is that of the second parse. -/
theorem rate_limit_abort_ignores_hit :
    notFoundEnv.unmarshalPulls notFoundBody
        = .error "json: cannot unmarshal object into Go value of type main.pullsResponse"
    ∧ notFoundEnv.unmarshalRatelimit notFoundBody
        = .ok ⟨"Not Found", "https://developer.github.com/v3"⟩
    ∧ ratelimit.hit ⟨"Not Found", "https://developer.github.com/v3"⟩ = false
    ∧ processPullResponse notFoundEnv ⟨.ok notFoundBody, none, "1550000000"⟩
        = ⟨[.rateLimitLeft 120], .error (.exit 1)⟩
    ∧ notFoundEnv.unmarshalPulls "\"oops\""
        = .error "json: cannot unmarshal string into Go value of type main.pullsResponse"
    ∧ processPullResponse notFoundEnv ⟨.ok "\"oops\"", none, ""⟩
        = ⟨[], .ok (.error "json: cannot unmarshal string into Go value of type main.ratelimit")⟩ := by
  refine ⟨rfl, rfl, rfl, rfl, rfl, rfl⟩

end GentxCount
